import Mathlib

/-!
Shallow embedding of the resilience and orchestration core of the
mcp-gemini-web repository: the retry engine and error classifier
(src/lib/rateLimiter.ts, retry module), the token-bucket rate limiter
(src/lib/rateLimiter.ts), the resilient client with model fallback,
batch execution, health checks and metrics (src/lib/client.ts), and the
multi-step research orchestration (research plan parsing, parallel
execution, source deduplication in src/server.ts).

Modelling conventions: JavaScript numbers are rationals, timestamps are
integers, Math.random draws are explicit rational parameters, and the
nondeterministic outcome of each remote API attempt is an oracle
function from the attempt index to an Except value.  JS builtins used
by the code (String.prototype.toLowerCase, includes, the two regular
expressions, Array semantics) are implemented structurally over
character lists, following their ECMAScript semantics.
-/

deriving instance DecidableEq for Except

namespace McpGeminiWeb

/-- A JavaScript Error value as observed by the retry and client code:
its name, its message, and the optional explicit retryable flag carried
by the GeminiApiError subclasses (some b models a present flag whose
strict comparison to true yields b). -/
structure JsError where
  name : String := "Error"
  message : String
  retryable : Option Bool := none
deriving DecidableEq

/-- String(error) for a JS Error: name and message joined by a colon. -/
def JsError.toDisplay (e : JsError) : String :=
  if e.message = "" then e.name else e.name ++ (": ") ++ e.message

/-- ASCII lowering of one character, as JS toLowerCase acts on the
ASCII range the error signatures live in. -/
def lowerChar (c : Char) : Char :=
  if 'A' ≤ c ∧ c ≤ 'Z' then Char.ofNat (c.toNat + 32) else c

/-- message.toLowerCase() over the character list. -/
def lowerList (l : List Char) : List Char :=
  l.map lowerChar

/-- Does pat occur at the head of l (literal match)? -/
def headLit : List Char → List Char → Bool
  | [], _ => true
  | _ :: _, [] => false
  | c :: cs, d :: ds => c = d && headLit cs ds

/-- JS String.prototype.includes over character lists. -/
def containsSubL (pat : List Char) : List Char → Bool
  | [] => headLit pat []
  | l@(_ :: tail) => headLit pat l || containsSubL pat tail

/-- The fixed network fault signatures of isRetryableError, as
character lists. -/
def networkPatterns : List (List Char) :=
  [("econnreset").toList, ("etimedout").toList, ("enotfound").toList,
   ("econnrefused").toList, ("socket hang up").toList,
   ("network error").toList, ("fetch failed").toList]

/-- Drop a literal character sequence from the front, or fail. -/
def dropLit : List Char → List Char → Option (List Char)
  | [], l => some l
  | _ :: _, [] => none
  | c :: cs, d :: ds => if c = d then dropLit cs ds else none

/-- Members of the JS regex whitespace class that can appear in the
strings this code handles. -/
def isJsWs (c : Char) : Bool :=
  c = ' ' || c = '\t' || c = '\n' || c = '\r' ||
  c = '\x0b' || c = '\x0c' || c = ' '

/-- Match the regex fragment status-whitespace-three-digits anchored at
the head of the list and return the three-digit number (the capture of
the first match, parsed by parseInt). -/
def matchStatusAt (l : List Char) : Option Nat :=
  match dropLit (("status").toList) l with
  | none => none
  | some r1 =>
    match r1 with
    | [] => none
    | c :: rest =>
      if isJsWs c then
        match rest.dropWhile isJsWs with
        | a :: b :: d :: _ =>
          if a.isDigit && b.isDigit && d.isDigit then
            some (100 * (a.toNat - 48) + 10 * (b.toNat - 48) + (d.toNat - 48))
          else none
        | _ => none
      else none

/-- Leftmost match of the status-code regex over the whole string. -/
def statusScan : List Char → Option Nat
  | [] => none
  | l@(_ :: tail) =>
    match matchStatusAt l with
    | some n => some n
    | none => statusScan tail

/-- isRetryableError from src/lib/rateLimiter.ts (retry module): an
explicit retryable flag wins; otherwise network fault signatures in the
lowercased message; otherwise a status NNN match retried exactly for
429, 503 and 502. -/
def isRetryableError (e : JsError) : Bool :=
  match e.retryable with
  | some b => b
  | none =>
    let msg := lowerList e.message.toList
    if networkPatterns.any (fun p => containsSubL p msg) then true
    else
      match statusScan msg with
      | some st => st == 429 || st == 503 || st == 502
      | none => false

/-- RetryConfig from src/types/config.ts. -/
structure RetryConfig where
  maxRetries : Nat
  baseDelay : ℚ
  maxDelay : ℚ
  jitterFactor : ℚ
deriving DecidableEq

/-- calculateDelay from src/lib/rateLimiter.ts (retry module); r is the
Math.random draw from the unit interval. -/
def calculateDelay (attempt : Nat) (cfg : RetryConfig) (r : ℚ) : ℤ :=
  let exponentialDelay := cfg.baseDelay * 2 ^ attempt
  let cappedDelay := min exponentialDelay cfg.maxDelay
  let jitterRange := cappedDelay * cfg.jitterFactor
  let jitter := (r * 2 - 1) * jitterRange
  max 0 ⌊cappedDelay + jitter⌋

/-- RetryResult from src/lib/rateLimiter.ts (retry module). -/
structure RetryResult (T : Type) where
  success : Bool
  data : Option T
  error : Option JsError
  attempts : Nat
  totalDelay : ℤ
deriving DecidableEq

/-- The retry loop of retryWithBackoff.  The fn thunk is an oracle from
the attempt index to that invocation outcome and the Math.random draws
are the function rand of the attempt index; fuel bounds the loop
exactly as the for-loop header does (the initial fuel is maxRetries, so
the fuel-exhausted branch is the unreachable tail return of the
source). -/
def retryAux (fn : Nat → Except JsError T) (cfg : RetryConfig) (rand : Nat → ℚ)
    (fuel attempt : Nat) (totalDelay : ℤ) : RetryResult T :=
  match fn attempt with
    | .ok d =>
      { success := true, data := some d, error := none,
        attempts := attempt + 1, totalDelay := totalDelay }
    | .error e =>
      if !isRetryableError e || attempt == cfg.maxRetries then
        { success := false, data := none, error := some e,
          attempts := attempt + 1, totalDelay := totalDelay }
      else
        match fuel with
        | 0 =>
          { success := false, data := none, error := some e,
            attempts := cfg.maxRetries + 1, totalDelay := totalDelay }
        | f + 1 =>
          retryAux fn cfg rand f (attempt + 1)
            (totalDelay + calculateDelay attempt cfg (rand attempt))

/-- retryWithBackoff from src/lib/rateLimiter.ts (retry module). -/
def retryWithBackoff (fn : Nat → Except JsError T) (cfg : RetryConfig)
    (rand : Nat → ℚ) : RetryResult T :=
  retryAux fn cfg rand cfg.maxRetries 0 0

/-- retryWithBackoffOrThrow: raises the recorded error on failure.  The
two inner none branches are unreachable in the source as well (the
result always carries data on success and an error on failure). -/
def retryWithBackoffOrThrow (fn : Nat → Except JsError T) (cfg : RetryConfig)
    (rand : Nat → ℚ) : Except JsError T :=
  let r := retryWithBackoff fn cfg rand
  if r.success then
    match r.data with
    | some d => .ok d
    | none => .error { message := "undefined" }
  else
    match r.error with
    | some e => .error e
    | none => .error { message := "undefined" }

/-- A grounding source entry. -/
structure Source where
  uri : String
  title : String
deriving DecidableEq

/-- GenerateContentResult from src/types/config.ts (the opaque raw
response field is omitted; nothing in the embedded code reads it). -/
structure ContentResult where
  text : String
  sources : List Source
  queries : List String
deriving DecidableEq

/-- One groundingChunks entry of the raw remote response: an optional
web object with optional uri and title. -/
structure RawWeb where
  uri : Option String
  title : Option String
deriving DecidableEq

structure RawChunk where
  web : Option RawWeb
deriving DecidableEq

/-- The sources extraction of executeWithTimeout in src/lib/client.ts:
map each chunk with a truthy web.uri to an entry (title defaulted to
the empty string) and filter out the null entries.  A missing or empty
uri is falsy in JS, so such chunks are skipped. -/
def extractSources (chunks : List RawChunk) : List Source :=
  chunks.filterMap (fun c =>
    match c.web with
    | some w =>
      match w.uri with
      | some u => if u = "" then none else some { uri := u, title := w.title.getD "" }
      | none => none
    | none => none)

/-- The private metrics record of GeminiClient (src/lib/client.ts). -/
structure Metrics where
  requestsTotal : Nat
  requestsPending : Nat
  errorsTotal : Nat
  lastError : Option JsError
  lastErrorTime : Option ℤ
  startTime : ℤ
deriving DecidableEq

/-- recordError from src/lib/client.ts; now is the Date.now() value at
the moment of recording. -/
def recordError (m : Metrics) (e : JsError) (now : ℤ) : Metrics :=
  { m with errorsTotal := m.errorsTotal + 1,
           lastError := some e, lastErrorTime := some now }

/-- generateContent from src/lib/client.ts, with the remote call
attempts of the primary and fallback models given by the two oracles
(each executeWithTimeout invocation outcome indexed by attempt) and the
model already resolved to params.model or the default.  Returns the
call outcome together with the final metrics state; errNow is the
Date.now() value at recordError time.  The rate-limiter acquisition
only delays and is not observable in the result or metrics. -/
def generateContent (cfg : RetryConfig) (fallbackModel : Option String)
    (model : String) (primaryRun fallbackRun : Nat → Except JsError ContentResult)
    (randP randF : Nat → ℚ) (m : Metrics) (errNow : ℤ) :
    Except JsError ContentResult × Metrics :=
  let m1 := { m with requestsTotal := m.requestsTotal + 1,
                     requestsPending := m.requestsPending + 1 }
  let finish := fun (mm : Metrics) => { mm with requestsPending := mm.requestsPending - 1 }
  match retryWithBackoffOrThrow primaryRun cfg randP with
  | .ok r => (.ok r, finish m1)
  | .error e =>
    let useFallback :=
      match fallbackModel with
      | some fb => fb != "" && model != fb && isRetryableError e
      | none => false
    if useFallback then
      match retryWithBackoffOrThrow fallbackRun { cfg with maxRetries := 2 } randF with
      | .ok r => (.ok r, finish m1)
      | .error _ => (.error e, finish (recordError m1 e errNow))
    else
      (.error e, finish (recordError m1 e errNow))

/-- healthCheck from src/lib/client.ts: a probe generateContent call;
true exactly when it succeeds with nonempty trimmed text, false on any
failure; the metrics mutations of the inner call are kept. -/
def healthCheck (cfg : RetryConfig) (fallbackModel : Option String)
    (model : String) (primaryRun fallbackRun : Nat → Except JsError ContentResult)
    (randP randF : Nat → ℚ) (m : Metrics) (errNow : ℤ) : Bool × Metrics :=
  match generateContent cfg fallbackModel model primaryRun fallbackRun randP randF m errNow with
  | (.ok r, m2) => (decide (0 < r.text.trim.length), m2)
  | (.error _, m2) => (false, m2)

/-- HealthMetrics from src/types/config.ts. -/
structure HealthMetrics where
  healthy : Bool
  uptime : ℤ
  requestsTotal : Nat
  requestsPending : Nat
  lastError : Option String
  lastErrorTime : Option ℤ
  rateLimitTokens : ℚ
deriving DecidableEq

/-- getMetrics from src/lib/client.ts; now is the Date.now() value at
observation and rateTokens the rate-limiter snapshot.  The healthy
field translates the JS truthiness test on lastErrorTime: the check is
passed when the field is undefined, and also when the stored timestamp
is the falsy number 0. -/
def getMetrics (m : Metrics) (now : ℤ) (rateTokens : ℚ) : HealthMetrics :=
  { healthy :=
      match m.lastErrorTime with
      | none => true
      | some t => t == 0 || decide (60000 < now - t)
    uptime := (now - m.startTime).fdiv 1000
    requestsTotal := m.requestsTotal
    requestsPending := m.requestsPending
    lastError := m.lastError.map (fun e => e.message)
    lastErrorTime := m.lastErrorTime
    rateLimitTokens := rateTokens }

/-- The fulfilled value of one batch item promise: generateContent data
paired with the input index by the .then wrapper in
generateContentBatch. -/
structure FulfilledValue (T : Type) where
  data : T
  index : Nat
deriving DecidableEq

/-- One Promise.allSettled slot. -/
inductive SettledItem (T : Type) where
  | fulfilled (value : FulfilledValue T)
  | rejected (reason : JsError)
deriving DecidableEq

/-- The outcome objects constructed by generateContentBatch.  The
object literals of the source carry only success together with data or
error; the index field of the declared BatchResult interface is never
set, which the optional field records as none. -/
structure BatchOutcome (T : Type) where
  success : Bool
  data : Option T
  error : Option JsError
  index : Option Nat
deriving DecidableEq

/-- The promise of batch item i: its generateContent outcome (given by
the oracle run at index i) wrapped with the input index. -/
def settleItem (run : Nat → Except JsError T) (i : Nat) : SettledItem T :=
  match run i with
  | .ok d => .fulfilled ⟨d, i⟩
  | .error e => .rejected e

/-- generateContentBatch from src/lib/client.ts: Promise.allSettled
returns the settled results in input order, and the final map builds
one outcome object per slot. -/
def generateContentBatch (n : Nat) (run : Nat → Except JsError T) :
    List (BatchOutcome T) :=
  ((List.range n).map (settleItem run)).map (fun r =>
    match r with
    | .fulfilled v => { success := true, data := some v.data, error := none, index := none }
    | .rejected e => { success := false, data := none, error := some e, index := none })

/-- RateLimiterConfig from src/types/config.ts. -/
structure RateLimiterConfig where
  requestsPerMinute : ℚ
  maxBurst : ℚ
deriving DecidableEq

/-- The mutable TokenBucket state. -/
structure BucketState where
  tokens : ℚ
  lastRefill : ℤ
deriving DecidableEq

def capacity (c : RateLimiterConfig) : ℚ := c.maxBurst

/-- requestsPerMinute converted to tokens per millisecond. -/
def refillRate (c : RateLimiterConfig) : ℚ := c.requestsPerMinute / 60000

/-- The constructor state: a full bucket stamped with Date.now(). -/
def initBucket (c : RateLimiterConfig) (now : ℤ) : BucketState :=
  { tokens := c.maxBurst, lastRefill := now }

/-- The private refill of TokenBucket. -/
def refill (c : RateLimiterConfig) (now : ℤ) (s : BucketState) : BucketState :=
  let elapsed := now - s.lastRefill
  if elapsed ≤ 0 then s
  else { tokens := min (capacity c) (s.tokens + (elapsed : ℚ) * refillRate c),
         lastRefill := now }

/-- getAvailableTokens: refill, then report without consuming. -/
def getAvailableTokens (c : RateLimiterConfig) (now : ℤ) (s : BucketState) :
    ℚ × BucketState :=
  let s2 := refill c now s
  (s2.tokens, s2)

/-- calculateWaitTime: refill, then 0 when enough tokens are available,
otherwise the ceiling of shortfall over rate. -/
def calculateWaitTime (c : RateLimiterConfig) (n : ℚ) (now : ℤ) (s : BucketState) :
    ℤ × BucketState :=
  let s2 := refill c now s
  if n ≤ s2.tokens then (0, s2)
  else (⌈(n - s2.tokens) / refillRate c⌉, s2)

/-- One iteration of the acquire loop at clock value now: when the
computed wait time is 0 the tokens are debited and the call returns,
otherwise the caller sleeps (the next iteration is a later list entry
with a later clock). -/
def acquireStep (c : RateLimiterConfig) (n : ℚ) (now : ℤ) (s : BucketState) :
    Bool × BucketState :=
  let w := calculateWaitTime c n now s
  if w.1 = 0 then (true, { w.2 with tokens := w.2.tokens - n })
  else (false, w.2)

/-- reset: restore full capacity with a fresh timestamp. -/
def resetBucket (c : RateLimiterConfig) (now : ℤ) : BucketState :=
  { tokens := capacity c, lastRefill := now }

/-- One observable TokenBucket operation, stamped with the Date.now()
value at which it runs. -/
inductive BucketOp where
  | getAvail (now : ℤ)
  | waitTime (n : ℚ) (now : ℤ)
  | acquireTry (n : ℚ) (now : ℤ)
  | reset (now : ℤ)

def applyOp (c : RateLimiterConfig) (s : BucketState) : BucketOp → BucketState
  | .getAvail now => (getAvailableTokens c now s).2
  | .waitTime n now => (calculateWaitTime c n now s).2
  | .acquireTry n now => (acquireStep c n now s).2
  | .reset now => resetBucket c now

def runOps (c : RateLimiterConfig) (s : BucketState) (ops : List BucketOp) :
    BucketState :=
  ops.foldl (applyOp c) s

/-- Validity of one operation: acquire is called with a nonnegative
token count (the source only ever passes the default 1). -/
def opOK : BucketOp → Prop
  | .acquireTry n _ => 0 ≤ n
  | _ => True

/-- The token bucket invariant of the spec. -/
def BucketInv (c : RateLimiterConfig) (s : BucketState) : Prop :=
  0 ≤ s.tokens ∧ s.tokens ≤ capacity c

/-- The outcome of the JSON.parse call on the planning response text
(an external builtin): fail when it throws a SyntaxError (taking the
catch path), nullValue when it succeeds with the JSON value null (text
consisting of null), and value q for every other parsed value, where q
holds the elements of the queries property of that value when it is an
array and is none otherwise (missing or non-array property, or a
primitive or array value whose property access yields undefined
without throwing). -/
inductive PlanParse where
  | fail
  | nullValue
  | value (queries : Option (List String))
deriving DecidableEq

/-- Does the closing fragment quote-whitespace-bracket of the plan list
regex match at this point (the quote already consumed)? -/
def closesAt (tail : List Char) : Bool :=
  match tail.dropWhile isJsWs with
  | ']' :: _ => true
  | _ => false

/-- The lazy capture of the plan list regex: grow the capture one
character at a time, closing at the first quote followed by optional
whitespace and a closing bracket. -/
def lazyCapture (acc : List Char) : List Char → Option (List Char)
  | [] => none
  | c :: tail =>
    if c = '"' && closesAt tail then some acc.reverse
    else lazyCapture (c :: acc) tail

/-- Anchored match of the plan list regex (open bracket, optional
whitespace, quote, lazy capture). -/
def matchAt (l : List Char) : Option (List Char) :=
  match l with
  | '[' :: rest =>
    match rest.dropWhile isJsWs with
    | '"' :: body => lazyCapture [] body
    | _ => none
  | _ => none

/-- Leftmost match of the plan list regex: the capture of the first
position where the anchored match succeeds. -/
def findMatch : List Char → Option (List Char)
  | [] => none
  | l@(_ :: tail) =>
    match matchAt l with
    | some cap => some cap
    | none => findMatch tail

/-- Does the split delimiter regex (quote, optional whitespace, comma,
optional whitespace, quote) match at the head; if so return the rest. -/
def delimMatch (l : List Char) : Option (List Char) :=
  match l with
  | '"' :: r1 =>
    match r1.dropWhile isJsWs with
    | ',' :: r2 =>
      match r2.dropWhile isJsWs with
      | '"' :: r3 => some r3
      | _ => none
    | _ => none
  | _ => none

/-- String.prototype.split on the delimiter regex: cut at each leftmost
nonoverlapping delimiter match.  Fuel is the character count; every
step consumes at least one character, so the fuel branch (which returns
the remaining text unsplit) is unreachable from splitQuoted. -/
def splitQuotedAux : Nat → List Char → List Char → List String
  | _, acc, [] => [String.mk acc.reverse]
  | 0, acc, l => [String.mk (acc.reverse ++ l)]
  | f + 1, acc, l@(c :: tail) =>
    match delimMatch l with
    | some rest => String.mk acc.reverse :: splitQuotedAux f [] rest
    | none => splitQuotedAux f (c :: acc) tail

def splitQuoted (l : List Char) : List String :=
  splitQuotedAux l.length [] l

/-- The catch branch of the plan parsing: regex-extract a quoted list
from the raw text and split it, or produce the empty array when the
regex does not match. -/
def extractQuoted (text : String) : List String :=
  match findMatch text.toList with
  | some cap => splitQuoted cap
  | none => []

/-- The plan phase of researchCall (src/server.ts): the strict JSON
parse runs inside try/catch and the catch assigns the pattern
extraction from the raw text; the guard that then reads plan.queries
sits outside the try, so when the parse succeeded with null that
property access throws an uncaught TypeError and researchCall rejects.
On every other path the guard replaces a missing, non-array or empty
queries value by the single original question and the plan is
truncated to its first max 1 maxSteps entries. -/
def researchPlanQueries (parse : PlanParse) (text question : String)
    (maxSteps : ℤ) : Except JsError (List String) :=
  match parse with
  | .nullValue =>
    Except.error { name := "TypeError",
                   message := "Cannot read properties of null (reading 'queries')" }
  | .fail =>
    let arr := extractQuoted text
    let queries := if arr = [] then [question] else arr
    Except.ok (queries.take (max 1 maxSteps).toNat)
  | .value q =>
    let queries :=
      match q with
      | some l => if l = [] then [question] else l
      | none => [question]
    Except.ok (queries.take (max 1 maxSteps).toNat)

/-- One perQueryNotes entry of researchCall. -/
structure PerQueryNote where
  q : String
  text : String
  sources : List Source
deriving DecidableEq

/-- The parallel execute phase of researchCall: Promise.allSettled over
the planned sub-queries (run i is the grounded call outcome of slot i),
fulfilled slots keeping their text and sources, rejected slots
receiving the inline error placeholder with no sources. -/
def executeParallel (queriesToRun : List String)
    (run : Nat → Except JsError ContentResult) : List PerQueryNote :=
  queriesToRun.enum.map (fun p =>
    match run p.1 with
    | .ok r => { q := p.2, text := r.text, sources := r.sources }
    | .error e => { q := p.2, text := ("[Error: " ++ e.toDisplay ++ "]"), sources := [] })

/-- The dedup Map loop of researchCall: insert each source whose uri is
truthy and not yet present; Map preserves insertion order, modelled by
the reversed accumulator. -/
def dedupAux : List Source → List Source → List Source
  | acc, [] => acc.reverse
  | acc, s :: rest =>
    if s.uri ≠ "" ∧ (∀ t ∈ acc, t.uri ≠ s.uri) then dedupAux (s :: acc) rest
    else dedupAux acc rest

def dedupByUri (l : List Source) : List Source :=
  dedupAux [] l

/-! ## Helper lemmas about the retry loop -/

theorem retryAux_ok (fn : Nat → Except JsError T) (cfg : RetryConfig)
    (rand : Nat → ℚ) (fuel attempt : Nat) (td : ℤ) (d : T)
    (h : fn attempt = Except.ok d) :
    retryAux fn cfg rand fuel attempt td =
      { success := true, data := some d, error := none,
        attempts := attempt + 1, totalDelay := td } := by
  rw [retryAux.eq_def, h]

theorem retryAux_stop (fn : Nat → Except JsError T) (cfg : RetryConfig)
    (rand : Nat → ℚ) (fuel attempt : Nat) (td : ℤ) (e : JsError)
    (h : fn attempt = Except.error e)
    (hc : (!isRetryableError e || attempt == cfg.maxRetries) = true) :
    retryAux fn cfg rand fuel attempt td =
      { success := false, data := none, error := some e,
        attempts := attempt + 1, totalDelay := td } := by
  rw [retryAux.eq_def, h]
  simp only [hc, if_true]

theorem retryAux_next (fn : Nat → Except JsError T) (cfg : RetryConfig)
    (rand : Nat → ℚ) (f attempt : Nat) (td : ℤ) (e : JsError)
    (h : fn attempt = Except.error e)
    (hc : (!isRetryableError e || attempt == cfg.maxRetries) = false) :
    retryAux fn cfg rand (f + 1) attempt td =
      retryAux fn cfg rand f (attempt + 1)
        (td + calculateDelay attempt cfg (rand attempt)) := by
  rw [retryAux.eq_def, h]
  simp only [hc, Bool.false_eq_true, if_false]

theorem retryAux_exhaust (fn : Nat → Except JsError T) (cfg : RetryConfig)
    (rand : Nat → ℚ) :
    ∀ fuel attempt td, attempt + fuel = cfg.maxRetries →
    (∀ i, attempt ≤ i → i ≤ cfg.maxRetries →
      ∃ e, fn i = Except.error e ∧ isRetryableError e = true) →
    ∃ e, fn cfg.maxRetries = Except.error e ∧
      (retryAux fn cfg rand fuel attempt td).success = false ∧
      (retryAux fn cfg rand fuel attempt td).error = some e ∧
      (retryAux fn cfg rand fuel attempt td).attempts = cfg.maxRetries + 1 := by
  intro fuel
  induction fuel with
  | zero =>
    intro attempt td hsum hall
    obtain ⟨e, he, hr⟩ := hall attempt le_rfl (by omega)
    have hatt : attempt = cfg.maxRetries := by omega
    subst hatt
    rw [retryAux_stop fn cfg rand 0 cfg.maxRetries td e he (by simp)]
    exact ⟨e, he, rfl, rfl, rfl⟩
  | succ f ih =>
    intro attempt td hsum hall
    obtain ⟨e, he, hr⟩ := hall attempt le_rfl (by omega)
    have hne : (attempt == cfg.maxRetries) = false := by
      simp only [beq_eq_false_iff_ne, ne_eq]
      omega
    rw [retryAux_next fn cfg rand f attempt td e he (by simp [hr, hne])]
    exact ih (attempt + 1) (td + calculateDelay attempt cfg (rand attempt))
      (by omega) (fun i hi hi2 => hall i (by omega) hi2)

theorem retryWithBackoff_exhaust (fn : Nat → Except JsError T) (cfg : RetryConfig)
    (rand : Nat → ℚ)
    (hall : ∀ i, i ≤ cfg.maxRetries →
      ∃ e, fn i = Except.error e ∧ isRetryableError e = true) :
    ∃ e, fn cfg.maxRetries = Except.error e ∧
      (retryWithBackoff fn cfg rand).success = false ∧
      (retryWithBackoff fn cfg rand).error = some e ∧
      (retryWithBackoff fn cfg rand).attempts = cfg.maxRetries + 1 :=
  retryAux_exhaust fn cfg rand cfg.maxRetries 0 0 (by omega)
    (fun i _ hi2 => hall i hi2)

theorem retryAux_attempts_le (fn : Nat → Except JsError T) (cfg : RetryConfig)
    (rand : Nat → ℚ) :
    ∀ fuel attempt td,
      (retryAux fn cfg rand fuel attempt td).attempts ≤
        max (attempt + fuel + 1) (cfg.maxRetries + 1) := by
  intro fuel
  induction fuel with
  | zero =>
    intro attempt td
    cases hfn : fn attempt with
    | ok d =>
      rw [retryAux_ok fn cfg rand 0 attempt td d hfn]
      simp
    | error e =>
      by_cases hc : (!isRetryableError e || attempt == cfg.maxRetries) = true
      · rw [retryAux_stop fn cfg rand 0 attempt td e hfn hc]
        simp
      · rw [retryAux.eq_def, hfn]
        simp only [Bool.not_eq_true] at hc
        simp only [hc, Bool.false_eq_true, if_false]
        simp
  | succ f ih =>
    intro attempt td
    cases hfn : fn attempt with
    | ok d =>
      rw [retryAux_ok fn cfg rand (f + 1) attempt td d hfn]
      simp
    | error e =>
      by_cases hc : (!isRetryableError e || attempt == cfg.maxRetries) = true
      · rw [retryAux_stop fn cfg rand (f + 1) attempt td e hfn hc]
        simp
      · rw [retryAux_next fn cfg rand f attempt td e hfn (by simpa using hc)]
        calc (retryAux fn cfg rand f (attempt + 1)
                (td + calculateDelay attempt cfg (rand attempt))).attempts ≤
              max (attempt + 1 + f + 1) (cfg.maxRetries + 1) := ih (attempt + 1) _
          _ ≤ max (attempt + (f + 1) + 1) (cfg.maxRetries + 1) := by
              simp only [le_max_iff, max_le_iff]
              omega

theorem retryWithBackoff_attempts_le (fn : Nat → Except JsError T)
    (cfg : RetryConfig) (rand : Nat → ℚ) :
    (retryWithBackoff fn cfg rand).attempts ≤ cfg.maxRetries + 1 := by
  have h := retryAux_attempts_le fn cfg rand cfg.maxRetries 0 0
  simpa [retryWithBackoff] using h

theorem retryWithBackoff_nonretryable (fn : Nat → Except JsError T)
    (cfg : RetryConfig) (rand : Nat → ℚ) (e : JsError)
    (h : fn 0 = Except.error e) (hr : isRetryableError e = false) :
    retryWithBackoff fn cfg rand =
      { success := false, data := none, error := some e,
        attempts := 1, totalDelay := 0 } := by
  rw [retryWithBackoff, retryAux_stop fn cfg rand cfg.maxRetries 0 0 e h (by simp [hr])]

theorem orThrow_of_failure (fn : Nat → Except JsError T) (cfg : RetryConfig)
    (rand : Nat → ℚ) (e : JsError)
    (h1 : (retryWithBackoff fn cfg rand).success = false)
    (h2 : (retryWithBackoff fn cfg rand).error = some e) :
    retryWithBackoffOrThrow fn cfg rand = Except.error e := by
  rw [retryWithBackoffOrThrow]
  simp only [h1, h2, Bool.false_eq_true, if_false]

/-! ## Claim theorems -/

/-- Claim C3: retryWithBackoff invokes fn exactly once when fn throws a
non-retryable error regardless of maxRetries (the whole result is the
failure record with attempt count 1, the thrown error and no sleeping,
independent of every later oracle value), and exactly maxRetries + 1
times when every invocation throws a retryable error (the failure
record reports maxRetries + 1 attempts and carries the last observed
error); in both cases a result is returned rather than raised. -/
theorem claim_C3 (T : Type) (fn : Nat → Except JsError T) (cfg : RetryConfig)
    (rand : Nat → ℚ) :
    (∀ e, fn 0 = Except.error e → isRetryableError e = false →
      retryWithBackoff fn cfg rand =
        { success := false, data := none, error := some e,
          attempts := 1, totalDelay := 0 }) ∧
    ((∀ i, i ≤ cfg.maxRetries →
        ∃ e, fn i = Except.error e ∧ isRetryableError e = true) →
      ∃ e, fn cfg.maxRetries = Except.error e ∧
        (retryWithBackoff fn cfg rand).success = false ∧
        (retryWithBackoff fn cfg rand).error = some e ∧
        (retryWithBackoff fn cfg rand).attempts = cfg.maxRetries + 1) := by
  constructor
  · intro e h hr
    exact retryWithBackoff_nonretryable fn cfg rand e h hr
  · intro hall
    exact retryWithBackoff_exhaust fn cfg rand hall

/-- Witness for C3: a non-retryable status 500 error stops after one
attempt under maxRetries = 3, and an always-retryable status 503 error
exhausts all four attempts. -/
theorem claim_C3_witness :
    retryWithBackoff
        (fun _ => (Except.error { message := "HTTP status 500 ko" } : Except JsError Nat))
        { maxRetries := 3, baseDelay := 1000, maxDelay := 60000, jitterFactor := 1/10 }
        (fun _ => 1/2) =
      { success := false, data := none,
        error := some { message := "HTTP status 500 ko" },
        attempts := 1, totalDelay := 0 } ∧
    (retryWithBackoff
        (fun _ => (Except.error { message := "HTTP status 503 kaput" } : Except JsError Nat))
        { maxRetries := 3, baseDelay := 1000, maxDelay := 60000, jitterFactor := 1/10 }
        (fun _ => 1/2)).attempts = 4 := by
  constructor
  · exact (claim_C3 Nat _ _ _).1 _ rfl (by decide)
  · obtain ⟨e, he, hs, herr, hatt⟩ :=
      (claim_C3 Nat
        (fun _ => (Except.error { message := "HTTP status 503 kaput" } : Except JsError Nat))
        { maxRetries := 3, baseDelay := 1000, maxDelay := 60000, jitterFactor := 1/10 }
        (fun _ => 1/2)).2
        (fun i _ => ⟨{ message := "HTTP status 503 kaput" }, rfl, by decide⟩)
    exact hatt

/-- Claim C4: calculateDelay equals max 0 of the floor of the capped
exponential delay plus a jitter lying within plus or minus cap times
jitterFactor, and with baseDelay 1000, maxDelay 60000 and zero jitter
it is exactly min of 1000 times 2 to the attempt and 60000 for attempts
up to 6. -/
theorem claim_C4 (attempt : Nat) (cfg : RetryConfig) (r : ℚ)
    (hb : 0 < cfg.baseDelay) (hbm : cfg.baseDelay ≤ cfg.maxDelay)
    (hj0 : 0 ≤ cfg.jitterFactor) (hr0 : 0 ≤ r) (hr1 : r ≤ 1) :
    (∃ jitter : ℚ,
      -(min (cfg.baseDelay * 2 ^ attempt) cfg.maxDelay * cfg.jitterFactor) ≤ jitter ∧
      jitter ≤ min (cfg.baseDelay * 2 ^ attempt) cfg.maxDelay * cfg.jitterFactor ∧
      calculateDelay attempt cfg r =
        max 0 ⌊min (cfg.baseDelay * 2 ^ attempt) cfg.maxDelay + jitter⌋) ∧
    (attempt ≤ 6 →
      calculateDelay attempt
        { maxRetries := cfg.maxRetries, baseDelay := 1000,
          maxDelay := 60000, jitterFactor := 0 } r =
        min (1000 * 2 ^ attempt) 60000) := by
  constructor
  · by_cases hcap : 0 ≤ min (cfg.baseDelay * 2 ^ attempt) cfg.maxDelay
    · refine ⟨(r * 2 - 1) * (min (cfg.baseDelay * 2 ^ attempt) cfg.maxDelay * cfg.jitterFactor),
        ?_, ?_, rfl⟩
      · have hrange : 0 ≤ min (cfg.baseDelay * 2 ^ attempt) cfg.maxDelay * cfg.jitterFactor :=
          mul_nonneg hcap hj0
        nlinarith
      · have hrange : 0 ≤ min (cfg.baseDelay * 2 ^ attempt) cfg.maxDelay * cfg.jitterFactor :=
          mul_nonneg hcap hj0
        nlinarith
    · exfalso
      apply hcap
      have h1 : (0:ℚ) < cfg.baseDelay * 2 ^ attempt := by positivity
      rcases min_cases (cfg.baseDelay * 2 ^ attempt) cfg.maxDelay with ⟨hmin, hle⟩ | ⟨hmin, hle⟩
      · rw [hmin]; linarith
      · rw [hmin]; linarith
  · intro _
    simp only [calculateDelay, mul_zero, add_zero]
    have hcast : (min ((1000:ℚ) * 2 ^ attempt) 60000) =
        (((min ((1000:ℤ) * 2 ^ attempt) 60000 : ℤ)) : ℚ) := by
      push_cast
      rfl
    rw [hcast, Int.floor_intCast]
    apply max_eq_right
    positivity

/-- Witness for C4 at attempt 5, the retry defaults and a mid-range
random draw. -/
theorem claim_C4_witness :
    calculateDelay 5
      { maxRetries := 5, baseDelay := 1000, maxDelay := 60000, jitterFactor := 0 }
      (1/2) = min (1000 * 2 ^ 5) 60000 :=
  (claim_C4 5
    { maxRetries := 5, baseDelay := 1000, maxDelay := 60000, jitterFactor := 0 }
    (1/2) (by norm_num) (by norm_num) (by norm_num) (by norm_num) (by norm_num)).2 (by norm_num)


/-- The fallback-error path of generateContent: primary retries
exhausted with a retryable error, fallback configured and distinct, and
the fallback retry run also failing; the original error is returned. -/
theorem genContent_fb_error (cfg : RetryConfig) (fb : Option String)
    (model : String) (pRun fRun : Nat → Except JsError ContentResult)
    (rP rF : Nat → ℚ) (m : Metrics) (t : ℤ) (e e2 : JsError) (f : String)
    (hp : retryWithBackoffOrThrow pRun cfg rP = Except.error e)
    (hfb : fb = some f) (hf1 : f ≠ "") (hf2 : model ≠ f)
    (hret : isRetryableError e = true)
    (he2 : retryWithBackoffOrThrow fRun { cfg with maxRetries := 2 } rF = Except.error e2) :
    (generateContent cfg fb model pRun fRun rP rF m t).1 = Except.error e := by
  subst hfb
  have hcond : (f != "" && model != f && isRetryableError e) = true := by
    simp [bne_iff_ne, hf1, hf2, hret]
  simp only [generateContent, hp, he2]
  rw [if_pos hcond]

/-- Claim C2 (amended): when the primary model call fails after
exhausting its retries, a configured fallback model differing from the
used model is retried once more when the failure is retryable, with a
reduced retry budget of maxRetries = 2, that is, up to 3 fallback
invocations (not 2); when the fallback also fails the original primary
error is surfaced, and when the conditions do not hold the primary
error is surfaced directly. -/
theorem claim_C2 (cfg : RetryConfig) (fb : Option String) (model : String)
    (pRun fRun : Nat → Except JsError ContentResult) (rP rF : Nat → ℚ)
    (m : Metrics) (t : ℤ) (e : JsError)
    (hp : retryWithBackoffOrThrow pRun cfg rP = Except.error e) :
    (∀ f, fb = some f → f ≠ "" → model ≠ f → isRetryableError e = true →
      (∀ d, retryWithBackoffOrThrow fRun { cfg with maxRetries := 2 } rF = Except.ok d →
        (generateContent cfg fb model pRun fRun rP rF m t).1 = Except.ok d) ∧
      (∀ e2, retryWithBackoffOrThrow fRun { cfg with maxRetries := 2 } rF = Except.error e2 →
        (generateContent cfg fb model pRun fRun rP rF m t).1 = Except.error e)) ∧
    (isRetryableError e = false →
      (generateContent cfg fb model pRun fRun rP rF m t).1 = Except.error e) ∧
    (fb = none →
      (generateContent cfg fb model pRun fRun rP rF m t).1 = Except.error e) ∧
    (retryWithBackoff fRun { cfg with maxRetries := 2 } rF).attempts ≤ 3 := by
  refine ⟨?_, ?_, ?_, ?_⟩
  · intro f hfb hf1 hf2 hret
    subst hfb
    have hcond : (f != "" && model != f && isRetryableError e) = true := by
      simp [bne_iff_ne, hf1, hf2, hret]
    constructor
    · intro d hd
      simp only [generateContent, hp, hd]
      rw [if_pos hcond]
    · intro e2 he2
      exact genContent_fb_error cfg (some f) model pRun fRun rP rF m t e e2 f
        hp rfl hf1 hf2 hret he2
  · intro hret
    simp only [generateContent, hp]
    rcases fb with _ | f
    · rfl
    · simp only [hret, Bool.and_false, Bool.false_eq_true, if_false]
  · intro hfb
    subst hfb
    simp only [generateContent, hp]
    rfl
  · have h := retryWithBackoff_attempts_le fRun { cfg with maxRetries := 2 } rF
    simpa using h

/-- Counterexample for C2 as frozen: with the primary and the fallback
both failing every attempt with a retryable status 503 error, the call
surfaces the original primary error, but the fallback retry run the
code performs (maxRetries reduced to 2) invokes the fallback three
times, not two. -/
theorem claim_C2_counterexample :
    (generateContent { maxRetries := 5, baseDelay := 1000, maxDelay := 60000, jitterFactor := 1/10 }
        (some "gemini-2.5-flash") "gemini-3-flash-preview"
        (fun _ => Except.error { message := "HTTP status 503 down" })
        (fun _ => Except.error { message := "HTTP status 503 still down" })
        (fun _ => 1/2) (fun _ => 1/2)
        { requestsTotal := 0, requestsPending := 0, errorsTotal := 0,
          lastError := none, lastErrorTime := none, startTime := 0 } 1000).1 =
      Except.error { message := "HTTP status 503 down" } ∧
    (retryWithBackoff
        (fun _ => (Except.error { message := "HTTP status 503 still down" } : Except JsError ContentResult))
        { RetryConfig.mk 5 1000 60000 (1/10) with maxRetries := 2 }
        (fun _ => 1/2)).attempts = 3 := by
  have hp : retryWithBackoffOrThrow
      (fun _ => (Except.error { message := "HTTP status 503 down" } : Except JsError ContentResult))
      { maxRetries := 5, baseDelay := 1000, maxDelay := 60000, jitterFactor := 1/10 }
      (fun _ => 1/2) = Except.error { message := "HTTP status 503 down" } := by
    obtain ⟨e, he, hs, herr, _⟩ := retryWithBackoff_exhaust
      (fun _ => (Except.error { message := "HTTP status 503 down" } : Except JsError ContentResult))
      { maxRetries := 5, baseDelay := 1000, maxDelay := 60000, jitterFactor := 1/10 }
      (fun _ => 1/2)
      (fun i _ => ⟨{ message := "HTTP status 503 down" }, rfl, by decide⟩)
    cases he
    exact orThrow_of_failure _ _ _ _ hs herr
  obtain ⟨e2, he2, hs2, herr2, hatt2⟩ := retryWithBackoff_exhaust
    (fun _ => (Except.error { message := "HTTP status 503 still down" } : Except JsError ContentResult))
    { RetryConfig.mk 5 1000 60000 (1/10) with maxRetries := 2 }
    (fun _ => 1/2)
    (fun i _ => ⟨{ message := "HTTP status 503 still down" }, rfl, by decide⟩)
  have hf : retryWithBackoffOrThrow
      (fun _ => (Except.error { message := "HTTP status 503 still down" } : Except JsError ContentResult))
      { RetryConfig.mk 5 1000 60000 (1/10) with maxRetries := 2 }
      (fun _ => 1/2) = Except.error e2 :=
    orThrow_of_failure _ _ _ _ hs2 herr2
  constructor
  · exact genContent_fb_error _ _ _ _ _ _ _ _ _ _ _ _
      hp rfl (by decide) (by decide) (by decide) hf
  · exact hatt2

/-- Witness for claim C2: a retryable primary failure with a fallback
that succeeds immediately makes generateContent return the fallback
data. -/
theorem claim_C2_witness :
    (generateContent { maxRetries := 0, baseDelay := 1000, maxDelay := 60000, jitterFactor := 0 }
        (some "f") "m"
        (fun _ => Except.error { message := "x", retryable := some true })
        (fun _ => Except.ok { text := "hi", sources := [], queries := [] })
        (fun _ => 0) (fun _ => 0)
        { requestsTotal := 0, requestsPending := 0, errorsTotal := 0,
          lastError := none, lastErrorTime := none, startTime := 0 } 7).1 =
      Except.ok { text := "hi", sources := [], queries := [] } := by
  have h := (claim_C2 { maxRetries := 0, baseDelay := 1000, maxDelay := 60000, jitterFactor := 0 }
      (some "f") "m"
      (fun _ => Except.error { message := "x", retryable := some true })
      (fun _ => Except.ok { text := "hi", sources := [], queries := [] })
      (fun _ => 0) (fun _ => 0)
      { requestsTotal := 0, requestsPending := 0, errorsTotal := 0,
        lastError := none, lastErrorTime := none, startTime := 0 } 7
      { message := "x", retryable := some true } (by decide)).1
      "f" rfl (by decide) (by decide) (by decide)
  exact h.1 { text := "hi", sources := [], queries := [] } (by decide)

/-- Counterexample for C1 as frozen: the outcome objects built by
generateContentBatch carry no index field (the field of the declared
BatchResult interface is left unset), so the outcome of input 0 does
not hold its input index. -/
theorem claim_C1_counterexample :
    (generateContentBatch 1 (fun _ => (Except.ok (0 : Nat)))).map
        (fun o => o.index) = [none] ∧
    (none : Option Nat) ≠ some 0 := by
  decide

/-- Claim C1 (amended): generateContentBatch returns exactly one
outcome per input item and the outcome at list position i is the
outcome of input i (success with the data on success, failure with the
item error otherwise); the index field of the outcome objects is never
populated, the input index being carried by list position only. -/
theorem claim_C1 (T : Type) (n : Nat) (run : Nat → Except JsError T) :
    (generateContentBatch n run).length = n ∧
    (∀ i, i < n →
      (∀ d, run i = Except.ok d →
        (generateContentBatch n run)[i]? =
          some { success := true, data := some d, error := none, index := none }) ∧
      (∀ e, run i = Except.error e →
        (generateContentBatch n run)[i]? =
          some { success := false, data := none, error := some e, index := none })) := by
  constructor
  · simp [generateContentBatch]
  · intro i hi
    have hbase : ((List.range n).map (settleItem run))[i]? = some (settleItem run i) := by
      rw [List.getElem?_map, List.getElem?_range hi]
      rfl
    constructor
    · intro d hd
      have hset : settleItem run i = SettledItem.fulfilled ⟨d, i⟩ := by
        rw [settleItem, hd]
      simp only [generateContentBatch, List.getElem?_map, hbase, hset]
      rfl
    · intro e he
      have hset : settleItem run i = SettledItem.rejected e := by
        rw [settleItem, he]
      simp only [generateContentBatch, List.getElem?_map, hbase, hset]
      rfl

/-- Witness for claim C1 at two inputs, the first succeeding and the
second failing. -/
theorem claim_C1_witness :
    (generateContentBatch 2
        (fun i => if i = 0 then Except.ok (3 : Nat)
                  else Except.error { message := "boom" }))[0]? =
      some { success := true, data := some 3, error := none, index := none } ∧
    (generateContentBatch 2
        (fun i => if i = 0 then Except.ok (3 : Nat)
                  else Except.error { message := "boom" }))[1]? =
      some { success := false, data := none,
             error := some { message := "boom" }, index := none } := by
  have h := claim_C1 Nat 2
    (fun i => if i = 0 then Except.ok (3 : Nat)
              else Except.error { message := "boom" })
  exact ⟨((h.2 0 (by decide)).1 3 rfl), ((h.2 1 (by decide)).2 { message := "boom" } rfl)⟩



/-- Claim C9: the healthy flag of getMetrics is true exactly when no
error was ever recorded or the last recorded error lies more than 60
seconds in the past; within 60 seconds of a recorded error it is false.
Recorded error timestamps are Date.now() values, hence positive (a
stored timestamp of exactly 0 would additionally pass the JS truthiness
check in the source). -/
theorem claim_C9 (m : Metrics) (now : ℤ) (tok : ℚ) :
    (m.lastErrorTime = none → (getMetrics m now tok).healthy = true) ∧
    (∀ t, m.lastErrorTime = some t → 0 < t →
      (((getMetrics m now tok).healthy = true) ↔ 60000 < now - t)) := by
  constructor
  · intro h
    simp [getMetrics, h]
  · intro t ht hpos
    have hne : (t == 0) = false := beq_eq_false_iff_ne.mpr (by omega)
    simp [getMetrics, ht, hne]

/-- Witness for claim C9: unhealthy 29 seconds after an error at
timestamp 1000, healthy again 99 seconds after it, healthy with no
error recorded. -/
theorem claim_C9_witness :
    (getMetrics
        { requestsTotal := 3, requestsPending := 0, errorsTotal := 1,
          lastError := none, lastErrorTime := some 1000, startTime := 0 } 30000 0).healthy = false ∧
    (getMetrics
        { requestsTotal := 3, requestsPending := 0, errorsTotal := 1,
          lastError := none, lastErrorTime := some 1000, startTime := 0 } 100000 0).healthy = true ∧
    (getMetrics
        { requestsTotal := 3, requestsPending := 0, errorsTotal := 0,
          lastError := none, lastErrorTime := none, startTime := 0 } 100000 0).healthy = true := by
  refine ⟨?_, ?_, ?_⟩
  · have h := (claim_C9
        { requestsTotal := 3, requestsPending := 0, errorsTotal := 1,
          lastError := none, lastErrorTime := some 1000, startTime := 0 } 30000 0).2 1000 rfl
        (by norm_num)
    have hnot : ¬ ((60000:ℤ) < 30000 - 1000) := by norm_num
    exact Bool.eq_false_iff.mpr (fun hb => hnot (h.mp hb))
  · exact ((claim_C9
        { requestsTotal := 3, requestsPending := 0, errorsTotal := 1,
          lastError := none, lastErrorTime := some 1000, startTime := 0 } 100000 0).2 1000 rfl
        (by norm_num)).mpr (by norm_num)
  · exact (claim_C9
        { requestsTotal := 3, requestsPending := 0, errorsTotal := 0,
          lastError := none, lastErrorTime := none, startTime := 0 } 100000 0).1 rfl

/-- On a terminal generateContent failure, the returned metrics are the
input metrics with requestsTotal and errorsTotal incremented and the
error and its timestamp recorded (requestsPending returns to its
original value through the finally decrement). -/
theorem generateContent_error_pair (cfg : RetryConfig) (fb : Option String)
    (model : String) (pRun fRun : Nat → Except JsError ContentResult)
    (rP rF : Nat → ℚ) (m : Metrics) (errNow : ℤ) (e : JsError)
    (h : (generateContent cfg fb model pRun fRun rP rF m errNow).1 = Except.error e) :
    generateContent cfg fb model pRun fRun rP rF m errNow =
      (Except.error e,
        { m with requestsTotal := m.requestsTotal + 1,
                 errorsTotal := m.errorsTotal + 1,
                 lastError := some e, lastErrorTime := some errNow }) := by
  cases hP : retryWithBackoffOrThrow pRun cfg rP with
  | ok r =>
    rw [generateContent] at h
    rw [hP] at h
    exact absurd h (by simp)
  | error e1 =>
    rw [generateContent] at h ⊢
    rw [hP] at h ⊢
    dsimp only at h ⊢
    rcases fb with _ | f
    · dsimp only at h ⊢
      cases h
      cases m
      simp [recordError]
    · by_cases hc : (f != "" && model != f && isRetryableError e1) = true
      · rw [if_pos hc] at h ⊢
        cases hF : retryWithBackoffOrThrow fRun { cfg with maxRetries := 2 } rF with
        | ok r2 =>
          rw [hF] at h
          dsimp only at h
          exact absurd h (by simp)
        | error e2 =>
          rw [hF] at h
          dsimp only at h ⊢
          cases h
          cases m
          simp [recordError]
      · rw [if_neg hc] at h ⊢
        dsimp only at h ⊢
        cases h
        cases m
        simp [recordError]

/-- Claim C10: when the probe call inside healthCheck terminates in
failure, healthCheck resolves to false without raising, the shared
metrics are mutated (errorsTotal incremented, lastError and
lastErrorTime set to the probe error and its time), and a getMetrics
observation within the following 60 seconds reports healthy = false. -/
theorem claim_C10 (cfg : RetryConfig) (fb : Option String) (model : String)
    (pRun fRun : Nat → Except JsError ContentResult) (rP rF : Nat → ℚ)
    (m : Metrics) (errNow : ℤ) (tok : ℚ) (e : JsError)
    (h : (generateContent cfg fb model pRun fRun rP rF m errNow).1 = Except.error e) :
    (healthCheck cfg fb model pRun fRun rP rF m errNow).1 = false ∧
    (healthCheck cfg fb model pRun fRun rP rF m errNow).2 =
      { m with requestsTotal := m.requestsTotal + 1,
               errorsTotal := m.errorsTotal + 1,
               lastError := some e, lastErrorTime := some errNow } ∧
    (∀ now2, 0 < errNow → now2 - errNow ≤ 60000 →
      (getMetrics (healthCheck cfg fb model pRun fRun rP rF m errNow).2 now2 tok).healthy =
        false) := by
  have hpair := generateContent_error_pair cfg fb model pRun fRun rP rF m errNow e h
  have hhc : healthCheck cfg fb model pRun fRun rP rF m errNow =
      (false,
        { m with requestsTotal := m.requestsTotal + 1,
                 errorsTotal := m.errorsTotal + 1,
                 lastError := some e, lastErrorTime := some errNow }) := by
    rw [healthCheck, hpair]
  refine ⟨by rw [hhc], by rw [hhc], ?_⟩
  intro now2 hpos hle
  rw [hhc]
  have hne : (errNow == 0) = false := beq_eq_false_iff_ne.mpr (by omega)
  have hdec : ¬ (60000 < now2 - errNow) := by omega
  simp [getMetrics, hne, hdec]

/-- Witness for claim C10: a non-retryable probe failure with no
fallback configured; the probe reports false and the client is
unhealthy 30 seconds later. -/
theorem claim_C10_witness :
    (healthCheck { maxRetries := 0, baseDelay := 1000, maxDelay := 60000, jitterFactor := 0 }
        none "m"
        (fun _ => Except.error { message := "boom", retryable := some false })
        (fun _ => Except.error { message := "fb" }) (fun _ => 0) (fun _ => 0)
        { requestsTotal := 0, requestsPending := 0, errorsTotal := 0,
          lastError := none, lastErrorTime := none, startTime := 0 } 500).1 = false ∧
    (getMetrics
        (healthCheck { maxRetries := 0, baseDelay := 1000, maxDelay := 60000, jitterFactor := 0 }
          none "m"
          (fun _ => Except.error { message := "boom", retryable := some false })
          (fun _ => Except.error { message := "fb" }) (fun _ => 0) (fun _ => 0)
          { requestsTotal := 0, requestsPending := 0, errorsTotal := 0,
            lastError := none, lastErrorTime := none, startTime := 0 } 500).2 30500 0).healthy =
      false := by
  have h := claim_C10 { maxRetries := 0, baseDelay := 1000, maxDelay := 60000, jitterFactor := 0 }
      none "m"
      (fun _ => Except.error { message := "boom", retryable := some false })
      (fun _ => Except.error { message := "fb" }) (fun _ => 0) (fun _ => 0)
      { requestsTotal := 0, requestsPending := 0, errorsTotal := 0,
        lastError := none, lastErrorTime := none, startTime := 0 } 500 0
      { message := "boom", retryable := some false } (by decide)
  exact ⟨h.1, h.2.2 30500 (by norm_num) (by norm_num)⟩



/-! ## Token bucket lemmas -/

theorem refill_inv (c : RateLimiterConfig) (now : ℤ) (s : BucketState)
    (hrate : 0 ≤ refillRate c) (hcap : 0 ≤ capacity c) (h : BucketInv c s) :
    BucketInv c (refill c now s) := by
  unfold refill
  by_cases he : now - s.lastRefill ≤ 0
  · rw [if_pos he]
    exact h
  · rw [if_neg he]
    constructor
    · apply le_min hcap
      have hel : (0:ℚ) ≤ ((now - s.lastRefill : ℤ) : ℚ) := by
        have : (0:ℤ) ≤ now - s.lastRefill := by omega
        exact_mod_cast this
      exact add_nonneg h.1 (mul_nonneg hel hrate)
    · exact min_le_left _ _

theorem calculateWaitTime_state (c : RateLimiterConfig) (n : ℚ) (now : ℤ)
    (s : BucketState) : (calculateWaitTime c n now s).2 = refill c now s := by
  unfold calculateWaitTime
  by_cases hc : n ≤ (refill c now s).tokens
  · rw [if_pos hc]
  · rw [if_neg hc]

theorem waitTime_zero (c : RateLimiterConfig) (n : ℚ) (now : ℤ) (s : BucketState)
    (hrate : 0 < refillRate c)
    (h0 : (calculateWaitTime c n now s).1 = 0) :
    n ≤ (refill c now s).tokens := by
  by_cases hc : n ≤ (refill c now s).tokens
  · exact hc
  · exfalso
    unfold calculateWaitTime at h0
    rw [if_neg hc] at h0
    have hpos : 0 < (n - (refill c now s).tokens) / refillRate c :=
      div_pos (by linarith) hrate
    have hceil : 0 < ⌈(n - (refill c now s).tokens) / refillRate c⌉ :=
      Int.ceil_pos.mpr hpos
    simp only at h0
    omega

theorem acquireStep_inv (c : RateLimiterConfig) (n : ℚ) (now : ℤ) (s : BucketState)
    (hrate : 0 < refillRate c) (hcap : 0 ≤ capacity c) (hn : 0 ≤ n)
    (h : BucketInv c s) : BucketInv c (acquireStep c n now s).2 := by
  have hr := refill_inv c now s (le_of_lt hrate) hcap h
  unfold acquireStep
  by_cases hz : (calculateWaitTime c n now s).1 = 0
  · rw [if_pos hz]
    have hav := waitTime_zero c n now s hrate hz
    constructor
    · dsimp only
      rw [calculateWaitTime_state]
      linarith
    · dsimp only
      rw [calculateWaitTime_state]
      have h2 := hr.2
      linarith
  · rw [if_neg hz]
    dsimp only
    rw [calculateWaitTime_state]
    exact hr

theorem applyOp_inv (c : RateLimiterConfig) (s : BucketState) (op : BucketOp)
    (hrate : 0 < refillRate c) (hcap : 0 ≤ capacity c)
    (hop : opOK op) (h : BucketInv c s) : BucketInv c (applyOp c s op) := by
  cases op with
  | getAvail now =>
    exact refill_inv c now s (le_of_lt hrate) hcap h
  | waitTime n now =>
    show BucketInv c (calculateWaitTime c n now s).2
    rw [calculateWaitTime_state]
    exact refill_inv c now s (le_of_lt hrate) hcap h
  | acquireTry n now =>
    exact acquireStep_inv c n now s hrate hcap hop h
  | reset now =>
    exact ⟨hcap, le_refl _⟩

theorem runOps_inv (c : RateLimiterConfig)
    (hrate : 0 < refillRate c) (hcap : 0 ≤ capacity c) :
    ∀ ops s, (∀ op ∈ ops, opOK op) → BucketInv c s →
      BucketInv c (runOps c s ops) := by
  intro ops
  induction ops with
  | nil =>
    intro s _ h
    exact h
  | cons op rest ih =>
    intro s hops h
    simp only [runOps, List.foldl_cons]
    exact ih (applyOp c s op)
      (fun o ho => hops o (List.mem_cons_of_mem _ ho))
      (applyOp_inv c s op hrate hcap (hops op (List.mem_cons_self _ _)) h)

/-- Claim C5: starting from a constructed bucket (full, with the
spec-mandated coercions requestsPerMinute at least 1 and maxBurst at
least 1), every sequence of getAvailableTokens, calculateWaitTime,
acquire-loop iterations with nonnegative token counts and reset calls
(each refilling internally) keeps 0 as a lower and the capacity as an
upper bound on the token count, and an acquire iteration debits only
when the requested tokens are available after refill. -/
theorem claim_C5 (c : RateLimiterConfig) (t0 : ℤ) (ops : List BucketOp)
    (hmb : 1 ≤ c.maxBurst) (hrpm : 1 ≤ c.requestsPerMinute)
    (hops : ∀ op ∈ ops, opOK op) :
    BucketInv c (runOps c (initBucket c t0) ops) ∧
    (∀ s n now, (acquireStep c n now s).1 = true →
      n ≤ (refill c now s).tokens) := by
  have hrate : 0 < refillRate c := by
    unfold refillRate
    have h1 : (0:ℚ) < c.requestsPerMinute := by linarith
    positivity
  have hcap : 0 ≤ capacity c := by
    unfold capacity
    linarith
  constructor
  · apply runOps_inv c hrate hcap ops (initBucket c t0) hops
    refine ⟨?_, le_rfl⟩
    show (0:ℚ) ≤ c.maxBurst
    linarith
  · intro s n now hacq
    apply waitTime_zero c n now s hrate
    by_contra hz
    unfold acquireStep at hacq
    rw [if_neg hz] at hacq
    exact Bool.false_ne_true hacq

/-- Witness for claim C5: the default configuration (60 rpm, burst 10)
with an acquire, observations, a reset and a second acquire. -/
theorem claim_C5_witness :
    BucketInv { requestsPerMinute := 60, maxBurst := 10 }
      (runOps { requestsPerMinute := 60, maxBurst := 10 }
        (initBucket { requestsPerMinute := 60, maxBurst := 10 } 0)
        [BucketOp.acquireTry 1 0, BucketOp.getAvail 2000,
         BucketOp.waitTime 1 3000, BucketOp.reset 5000,
         BucketOp.acquireTry 1 6000]) :=
  (claim_C5 { requestsPerMinute := 60, maxBurst := 10 } 0
    [BucketOp.acquireTry 1 0, BucketOp.getAvail 2000,
     BucketOp.waitTime 1 3000, BucketOp.reset 5000,
     BucketOp.acquireTry 1 6000]
    (by norm_num) (by norm_num)
    (by
      intro op hop
      fin_cases hop <;> norm_num [opOK])).1



/-! ## Research plan lemmas -/

/-- Away from the parsed-null crash, the plan phase follows the tiers
the spec describes: a successful parse with a nonempty queries array is
kept and truncated, a missing, non-array or empty queries value falls
back to the original question, a parse failure uses the pattern
extraction with the same fallback, and every non-null outcome yields a
nonempty plan. -/
theorem researchPlanQueries_tiers (text question : String) (maxSteps : ℤ) :
    (∀ qs, qs ≠ [] →
      researchPlanQueries (PlanParse.value (some qs)) text question maxSteps =
        Except.ok (qs.take (max 1 maxSteps).toNat)) ∧
    (∀ q, (q = none ∨ q = some []) →
      researchPlanQueries (PlanParse.value q) text question maxSteps =
        Except.ok [question]) ∧
    (extractQuoted text ≠ [] →
      researchPlanQueries PlanParse.fail text question maxSteps =
        Except.ok ((extractQuoted text).take (max 1 maxSteps).toNat)) ∧
    (extractQuoted text = [] →
      researchPlanQueries PlanParse.fail text question maxSteps =
        Except.ok [question]) ∧
    (∀ parse, parse ≠ PlanParse.nullValue →
      ∃ l, researchPlanQueries parse text question maxSteps = Except.ok l ∧
        l ≠ []) := by
  have hm1 : 1 ≤ (max 1 maxSteps).toNat := by
    have := le_max_left 1 maxSteps
    omega
  have hq : [question].take (max 1 maxSteps).toNat = [question] :=
    List.take_of_length_le (by simp only [List.length_singleton]; exact hm1)
  have hne : ∀ l : List String, l ≠ [] → l.take (max 1 maxSteps).toNat ≠ [] := by
    intro l hl hc
    rcases List.take_eq_nil_iff.mp hc with h0 | h0
    · omega
    · exact hl h0
  refine ⟨?_, ?_, ?_, ?_, ?_⟩
  · intro qs hqs
    unfold researchPlanQueries
    dsimp only
    rw [if_neg hqs]
  · intro q hor
    unfold researchPlanQueries
    rcases hor with h0 | h0 <;> rw [h0] <;> dsimp only
    · rw [hq]
    · rw [if_pos rfl, hq]
  · intro hx
    unfold researchPlanQueries
    dsimp only
    rw [if_neg hx]
  · intro hx
    unfold researchPlanQueries
    dsimp only
    rw [if_pos hx, hq]
  · intro parse hnull
    cases parse with
    | fail =>
      unfold researchPlanQueries
      dsimp only
      by_cases hx : extractQuoted text = []
      · rw [if_pos hx, hq]
        exact ⟨[question], rfl, by simp⟩
      · rw [if_neg hx]
        exact ⟨_, rfl, hne _ hx⟩
    | nullValue => exact absurd rfl hnull
    | value q =>
      unfold researchPlanQueries
      rcases q with _ | qs
      · dsimp only
        rw [hq]
        exact ⟨[question], rfl, by simp⟩
      · dsimp only
        by_cases hqs : qs = []
        · rw [if_pos hqs, hq]
          exact ⟨[question], rfl, by simp⟩
        · rw [if_neg hqs]
          exact ⟨_, rfl, hne _ hqs⟩

/-- Claim C6 (code bug): when the planning call returns the text null,
the strict parse succeeds with the JSON value null, the catch path is
skipped, and the fallback guard itself throws reading plan.queries, so
researchCall rejects with a TypeError and no queries list is produced
at all; the claim (and the permissive-parsing intent the source states)
expects the single-question fallback there.  A genuinely unparsable
output does fall back to the original question, and a quoted list is
extracted and truncated. -/
theorem claim_C6 :
    researchPlanQueries PlanParse.nullValue "null" "what is X" 3 =
      Except.error { name := "TypeError",
                     message := "Cannot read properties of null (reading 'queries')" } ∧
    researchPlanQueries PlanParse.fail "total garbage" "what is X" 3 =
      Except.ok ["what is X"] ∧
    researchPlanQueries PlanParse.fail "junk [ \"a\", \"b\" ] tail" "what is X" 1 =
      Except.ok ["a"] := by
  decide

/-! ## Source dedup lemmas -/

theorem dedupAux_nil (acc : List Source) : dedupAux acc [] = acc.reverse := rfl

theorem dedupAux_cons (acc : List Source) (s : Source) (rest : List Source) :
    dedupAux acc (s :: rest) =
      if s.uri ≠ "" ∧ (∀ t ∈ acc, t.uri ≠ s.uri) then dedupAux (s :: acc) rest
      else dedupAux acc rest := rfl

theorem dedupAux_sublist :
    ∀ (l acc : List Source), ∃ t, dedupAux acc l = acc.reverse ++ t ∧ t.Sublist l := by
  intro l
  induction l with
  | nil =>
    intro acc
    exact ⟨[], by rw [dedupAux_nil]; simp, List.Sublist.refl _⟩
  | cons s rest ih =>
    intro acc
    rw [dedupAux_cons]
    by_cases hc : s.uri ≠ "" ∧ (∀ t ∈ acc, t.uri ≠ s.uri)
    · rw [if_pos hc]
      obtain ⟨t, ht, hsub⟩ := ih (s :: acc)
      exact ⟨s :: t, by rw [ht]; simp, List.Sublist.cons₂ s hsub⟩
    · rw [if_neg hc]
      obtain ⟨t, ht, hsub⟩ := ih acc
      exact ⟨t, ht, List.Sublist.cons s hsub⟩

theorem dedupAux_filter (u : String) (hu : u ≠ "") :
    ∀ (l acc : List Source),
      (dedupAux acc l).filter (fun s => s.uri == u) =
        acc.reverse.filter (fun s => s.uri == u) ++
        (if ∃ t ∈ acc, t.uri = u then []
         else (l.find? (fun s => s.uri == u)).toList) := by
  intro l
  induction l with
  | nil =>
    intro acc
    rw [dedupAux_nil]
    by_cases hex : ∃ t ∈ acc, t.uri = u
    · rw [if_pos hex]
      simp
    · rw [if_neg hex]
      simp
  | cons s rest ih =>
    intro acc
    rw [dedupAux_cons]
    by_cases hc : s.uri ≠ "" ∧ (∀ t ∈ acc, t.uri ≠ s.uri)
    · rw [if_pos hc, ih (s :: acc)]
      by_cases hsu : s.uri = u
      · have haccu : ¬ ∃ t ∈ acc, t.uri = u := by
          rintro ⟨t, htm, htu⟩
          exact hc.2 t htm (by rw [htu, hsu])
        have haccs : ∃ t ∈ s :: acc, t.uri = u := ⟨s, List.mem_cons_self _ _, hsu⟩
        rw [if_pos haccs, if_neg haccu,
          List.find?_cons_of_pos _ (by simp [hsu])]
        simp [List.filter_append, List.filter_cons, hsu]
      · have hiff : (∃ t ∈ s :: acc, t.uri = u) ↔ (∃ t ∈ acc, t.uri = u) := by
          constructor
          · rintro ⟨t, htm, htu⟩
            rcases List.mem_cons.mp htm with rfl | hm
            · exact absurd htu hsu
            · exact ⟨t, hm, htu⟩
          · rintro ⟨t, hm, htu⟩
            exact ⟨t, List.mem_cons_of_mem _ hm, htu⟩
        rw [List.find?_cons_of_neg _ (by simp [hsu])]
        by_cases hex : ∃ t ∈ acc, t.uri = u
        · rw [if_pos hex, if_pos (hiff.mpr hex)]
          simp [List.filter_append, List.filter_cons, hsu]
        · rw [if_neg hex, if_neg (fun hh => hex (hiff.mp hh))]
          simp [List.filter_append, List.filter_cons, hsu]
    · rw [if_neg hc, ih acc]
      by_cases hex : ∃ t ∈ acc, t.uri = u
      · rw [if_pos hex, if_pos hex]
      · rw [if_neg hex, if_neg hex]
        have hsu : s.uri ≠ u := by
          intro hh
          apply hc
          constructor
          · rw [hh]
            exact hu
          · intro t htm htu
            exact hex ⟨t, htm, htu.trans hh⟩
        rw [List.find?_cons_of_neg _ (by simp [hsu])]

theorem dedupAux_uri_nodup :
    ∀ (l acc : List Source), (acc.map (fun s => s.uri)).Nodup →
      ((dedupAux acc l).map (fun s => s.uri)).Nodup := by
  intro l
  induction l with
  | nil =>
    intro acc h
    rw [dedupAux_nil]
    simpa using h
  | cons s rest ih =>
    intro acc h
    rw [dedupAux_cons]
    by_cases hc : s.uri ≠ "" ∧ (∀ t ∈ acc, t.uri ≠ s.uri)
    · rw [if_pos hc]
      apply ih
      simp only [List.map_cons, List.nodup_cons]
      refine ⟨?_, h⟩
      intro hmem
      obtain ⟨t, htm, htu⟩ := List.mem_map.mp hmem
      exact hc.2 t htm htu
    · rw [if_neg hc]
      exact ih acc h

/-- Claim C7: over the concatenation of all sub-query source lists (all
of which carry nonempty uris by construction of the client source
extraction), the dedup loop keeps, for every cited uri, exactly one
entry, namely the first occurrence in plan order with its title, and
the kept entries form a subsequence of the concatenation (first-seen
order) with pairwise distinct uris. -/
theorem claim_C7 (ls : List (List Source))
    (h : ∀ s ∈ ls.flatten, s.uri ≠ "") :
    (dedupByUri ls.flatten).Sublist ls.flatten ∧
    ((dedupByUri ls.flatten).map (fun s => s.uri)).Nodup ∧
    (∀ u, (∃ s ∈ ls.flatten, s.uri = u) →
      ∃ s0, ls.flatten.find? (fun s => s.uri == u) = some s0 ∧
        (dedupByUri ls.flatten).filter (fun s => s.uri == u) = [s0]) := by
  refine ⟨?_, ?_, ?_⟩
  · obtain ⟨t, ht, hsub⟩ := dedupAux_sublist ls.flatten []
    rw [dedupByUri, ht]
    simpa using hsub
  · exact dedupAux_uri_nodup ls.flatten [] (by simp)
  · rintro u ⟨s, hsm, hsu⟩
    have hu : u ≠ "" := hsu ▸ h s hsm
    have hsome : (ls.flatten.find? (fun s => s.uri == u)).isSome := by
      rw [List.find?_isSome]
      exact ⟨s, hsm, by simp [hsu]⟩
    obtain ⟨s0, hs0⟩ := Option.isSome_iff_exists.mp hsome
    refine ⟨s0, hs0, ?_⟩
    rw [dedupByUri, dedupAux_filter u hu ls.flatten []]
    simp [hs0]

/-- Witness for claim C7: two sub-queries citing the same uri with
different titles collapse to the first occurrence. -/
theorem claim_C7_witness :
    ∃ s0,
      ([[Source.mk "https-example" "A"],
        [Source.mk "https-example" "B", Source.mk "other" "C"]] :
          List (List Source)).flatten.find?
        (fun s => s.uri == "https-example") = some s0 ∧
      (dedupByUri ([[Source.mk "https-example" "A"],
        [Source.mk "https-example" "B", Source.mk "other" "C"]] :
          List (List Source)).flatten).filter
        (fun s => s.uri == "https-example") = [s0] :=
  (claim_C7 [[Source.mk "https-example" "A"],
    [Source.mk "https-example" "B", Source.mk "other" "C"]]
    (by decide)).2.2 "https-example"
    ⟨Source.mk "https-example" "A", by decide, rfl⟩

/-- Claim C8: in parallel research execution every slot is preserved
(one note per planned sub-query, in plan order); a failing sub-query
slot receives the inline error placeholder with no sources while the
other slots carry their call results unchanged, so synthesis always
receives all slots. -/
theorem claim_C8 (queriesToRun : List String)
    (run : Nat → Except JsError ContentResult) :
    (executeParallel queriesToRun run).length = queriesToRun.length ∧
    (∀ i qi, queriesToRun[i]? = some qi →
      (∀ e, run i = Except.error e →
        (executeParallel queriesToRun run)[i]? =
          some { q := qi, text := ("[Error: " ++ e.toDisplay ++ "]"), sources := [] }) ∧
      (∀ r, run i = Except.ok r →
        (executeParallel queriesToRun run)[i]? =
          some { q := qi, text := r.text, sources := r.sources })) := by
  constructor
  · simp [executeParallel]
  · intro i qi hqi
    have henum : queriesToRun.enum[i]? = some (i, qi) := by
      rw [List.getElem?_enum, hqi]
      rfl
    constructor
    · intro e he
      simp only [executeParallel, List.getElem?_map, henum, Option.map]
      rw [he]
    · intro r hr
      simp only [executeParallel, List.getElem?_map, henum, Option.map]
      rw [hr]

/-- Witness for claim C8: two sub-queries, the first succeeding, the
second failing with a placeholder slot. -/
theorem claim_C8_witness :
    (executeParallel ["alpha", "beta"]
        (fun i => if i = 0 then Except.ok { text := "ta", sources := [Source.mk "u" "t"], queries := [] }
                  else Except.error { message := "kaput" }))[0]? =
      some { q := "alpha", text := "ta", sources := [Source.mk "u" "t"] } ∧
    (executeParallel ["alpha", "beta"]
        (fun i => if i = 0 then Except.ok { text := "ta", sources := [Source.mk "u" "t"], queries := [] }
                  else Except.error { message := "kaput" }))[1]? =
      some { q := "beta", text := "[Error: Error: kaput]", sources := [] } := by
  have h := claim_C8 ["alpha", "beta"]
    (fun i => if i = 0 then Except.ok { text := "ta", sources := [Source.mk "u" "t"], queries := [] }
              else Except.error { message := "kaput" })
  exact ⟨((h.2 0 "alpha" rfl).2 _ rfl),
         ((h.2 1 "beta" rfl).1 { message := "kaput" } rfl)⟩


end McpGeminiWeb
